import Mathlib

/-
Shallow embedding of the serial-tester repository (codenautas/serial-tester).

The authoritative source for the session logic is the first revision contained
in src/unnamed/part_001 (the `EmulatedSession` class of serial-api, lines
1-397), together with src/src/serial-skipper.ts (the `BrowserEmulatedSession`
class).  External npm collaborators (json4all's parse/stringify, guarantee-type's
`guarantee`, discrepances' structural comparison) are modelled as parameters or
as the structural equality they are documented to implement; everything else is
translated directly from the source.
-/

deriving instance DecidableEq for Except

namespace SerialTester

/-! ## Splitting the response body into lines

`result.split(/\r?\n/)`: the body is split at every `'\n'`, and a single `'\r'`
immediately preceding a `'\n'` is consumed with it.  A trailing `'\r'` not
followed by `'\n'` stays in its segment. -/

/-- Drop one leading carriage return from a reversed line accumulator
(equivalently: one trailing CR of the accumulated segment). -/
def chopCR : List Char → List Char
  | '\r' :: rest => rest
  | l => l

/-- Splitting on the regular expression matching an optional CR followed by LF,
over the (reversed) current segment and the remaining characters. -/
def splitLinesAux (cur : List Char) : List Char → List String
  | [] => [String.mk cur.reverse]
  | ch :: rest =>
    if ch = '\n' then String.mk (chopCR cur).reverse :: splitLinesAux [] rest
    else splitLinesAux (ch :: cur) rest

/-- JS `result.split(/\r?\n/)`. -/
def splitLines (s : String) : List String := splitLinesAux [] s.toList

/-! ## The structured-value codec (json4all, an external collaborator)

`JSON4all.parse` / the `error` field access `obj.error` are modelled as a
parameter: a codec over an abstract value type. -/

/-- The shape read off a parsed record's `error` field: `{message, code}`. -/
structure ErrorInfo where
  message : String
  code : String
deriving DecidableEq

/-- The external json4all codec together with the `.error` field access used by
`getResult`: `parse` may throw (modelled as `Except`), `errorField` reads the
`error` property of a decoded value when present. -/
structure Codec (α : Type) where
  parse : String → Except String α
  errorField : α → Option ErrorInfo

/-! ## getResult (EmulatedSession, src/unnamed/part_001 lines 169-203) -/

/-- The result modes of `type ResultAs = 'JSON+' | 'text' | 'JSON' | 'bp-login-error'`. -/
inductive ResultAs where
  | jsonPlus
  | text
  | json
  | bpLoginError
deriving DecidableEq

/-- Everything `getResult` can do: return a value (one constructor per mode)
or throw (one constructor per distinct throw site). -/
inductive GetResultOutcome (α : Type) where
  /-- `case 'text'`: the raw text unchanged. -/
  | textResult (s : String)
  /-- `case 'JSON+'`, separator found: the decoded payload; `notices` is the
  accumulated `notices` array at the moment of return. -/
  | payload (value : α) (notices : List String)
  /-- `case 'JSON+'`: a record carried an `error` field; the thrown `Error` has
  message `"Backend error: " + obj.error.message` and `code = obj.error.code`. -/
  | backendError (code : String) (message : String)
  /-- `case 'JSON+'`: `JSON4all.parse` threw on a notice-position record. -/
  | noticeParseError (line : String) (err : String)
  /-- `case 'JSON+'`: `JSON4all.parse` threw on the payload line after `--`. -/
  | payloadParseError (err : String)
  /-- `case 'JSON+'`: the lines ran out without a separator. -/
  | resultNotReceived (notices : List String)
  /-- `case 'bp-login-error'`: the regex capture, `undefined` when no match. -/
  | loginErrorMessage (m : Option String)
  /-- `default` (JSON mode): the directly parsed value. -/
  | jsonResult (value : α)
  /-- `default` (JSON mode): `JSON4all.parse` threw. -/
  | jsonParseError (err : String)
deriving DecidableEq

/-- The `console.log` calls `getResult` can make. -/
inductive LogEvent where
  /-- `console.log('Json error:', line)` in the catch block. -/
  | jsonErrorLine (line : String)
  /-- `console.log("notices")` (verbose only, before "result not received"). -/
  | noticesHeader
  /-- `console.log(notices)` (verbose only, before "result not received"). -/
  | noticesList (notices : List String)
deriving DecidableEq

/-- `JSON4all.parse( line || '\x7b\x7d' )`: an empty (falsy) line is parsed as
the empty-object literal. -/
def recordText (line : String) : String := if line = "" then "\x7b\x7d" else line

/-- `JSON4all.parse( lines.shift() || 'null')`: the line after the separator,
with a missing (`undefined`) or empty line defaulting to the text `null`. -/
def payloadText : List String → String
  | [] => "null"
  | l :: _ => if l = "" then "null" else l

/-- The `do { ... } while (lines.length)` loop of the `'JSON+'` case, on the
remaining `lines` and the accumulated `notices`.  The `[]` case is the loop
exit (`lines.length == 0`), which logs the notices (verbose mode only) and
throws `result not received`.  (`String.split` never returns an empty array, so
the body always runs at least once, and `lines.shift()` is never `undefined`
inside the loop: the `if (line != null)` guard before `notices.push(line)` is
always taken.) -/
def jsonPlusLoop {α : Type} (c : Codec α) (verbose : Bool) :
    List String → List String → GetResultOutcome α × List LogEvent
  | [], notices =>
    (.resultNotReceived notices,
     if notices ≠ [] ∧ verbose = true then [.noticesHeader, .noticesList notices] else [])
  | line :: rest, notices =>
    if line = "--" then
      match c.parse (payloadText rest) with
      | .ok v => (.payload v notices, [])
      | .error e => (.payloadParseError e, [])
    else
      match c.parse (recordText line) with
      | .error e => (.noticeParseError line e, [.jsonErrorLine line])
      | .ok obj =>
        match c.errorField obj with
        | some info => (.backendError info.code ("Backend error: " ++ info.message), [])
        | none => jsonPlusLoop c verbose rest (notices ++ [line])

/-! ### The bp-login-error regex

`result.match(/\berror-message[^>]*>([^<]*)</)?.[1]` -/

/-- JS word character (`\w`, non-unicode mode): ASCII letter, digit or `_`. -/
def isWordChar (ch : Char) : Bool := ch.isAlphanum || ch = '_'

/-- The word boundary `\b` before the literal `error-message`: start of input
or a non-word previous character. -/
def boundaryOk : Option Char → Bool
  | none => true
  | some p => !isWordChar p

/-- Literal marker of the regex. -/
def errorMessageMarker : List Char := String.toList "error-message"

/-- Whether the second list starts with the first. -/
def startsWithChars : List Char → List Char → Bool
  | [], _ => true
  | _ :: _, [] => false
  | m :: ms, ch :: cs => m = ch && startsWithChars ms cs

/-- `[^>]*>`: consume greedily up to and including the first `'>'`. -/
def consumeTo (stop : Char) : List Char → Option (List Char)
  | [] => none
  | ch :: cs => if ch = stop then some cs else consumeTo stop cs

/-- `([^<]*)<`: capture up to the first `'<'`, which must be present. -/
def captureTo (stop : Char) : List Char → Option (List Char)
  | [] => none
  | ch :: cs => if ch = stop then some [] else (captureTo stop cs).map (fun l => ch :: l)

/-- Match `[^>]*>([^<]*)<` starting right after the marker. -/
def matchFromMarker (cs : List Char) : Option String :=
  match consumeTo '>' cs with
  | none => none
  | some afterGt =>
    match captureTo '<' afterGt with
    | none => none
    | some captured => some (String.mk captured)

/-- Leftmost-match scan for `\berror-message[^>]*>([^<]*)<`. -/
def bpLoginErrorScan (prev : Option Char) : List Char → Option String
  | [] => none
  | ch :: rest =>
    match
      (if boundaryOk prev && startsWithChars errorMessageMarker (ch :: rest) then
        matchFromMarker ((ch :: rest).drop errorMessageMarker.length)
      else none) with
    | some m => some m
    | none => bpLoginErrorScan (some ch) rest

/-- `result.match(/\berror-message[^>]*>([^<]*)</)?.[1]`: the first capture
group of the first match, `undefined` (`none`) when the regex does not match. -/
def bpLoginErrorMatch (s : String) : Option String := bpLoginErrorScan none s.toList

/-- `getResult(result, parseResult)` (src/unnamed/part_001 lines 169-203),
with `this.verbose` passed explicitly and the `console.log` calls collected in
the second component. -/
def getResult {α : Type} (c : Codec α) (verbose : Bool) (result : String)
    (parseResult : ResultAs) : GetResultOutcome α × List LogEvent :=
  match parseResult with
  | .text => (.textResult result, [])
  | .jsonPlus => jsonPlusLoop c verbose (splitLines result) []
  | .bpLoginError => (.loginErrorMessage (bpLoginErrorMatch result), [])
  | .json =>
    match c.parse result with
    | .ok v => (.jsonResult v, [])
    | .error e => (.jsonParseError e, [])

/-! ### A concrete codec for evaluating the model on closed inputs -/

/-- A small concrete value type standing for json4all-decoded values. -/
inductive TestValue where
  | jnull
  | num (n : Int)
  | obj (errorInfo : Option ErrorInfo)
  | note (s : String)
deriving DecidableEq

/-- A concrete codec recognizing a handful of fixed texts. -/
def testCodec : Codec TestValue where
  parse s :=
    if s = "null" then .ok .jnull
    else if s = "\x7b\x7d" then .ok (.obj none)
    else if s = "42" then .ok (.num 42)
    else if s = "notice1" then .ok (.note "notice1")
    else if s = "notice2" then .ok (.note "notice2")
    else if s = "ERR" then .ok (.obj (some ⟨"boom", "E42"⟩))
    else .error s
  errorField v :=
    match v with
    | .obj e => e
    | _ => none

/-! ### Loop lemmas -/

/-- Consuming well-formed notice records: every line that is not the separator,
parses, and carries no `error` field is appended to the notices and the loop
continues. -/
theorem jsonPlusLoop_skip_notices {α : Type} (c : Codec α) (verbose : Bool)
    (ns : List String) (rest acc : List String)
    (h : ∀ l ∈ ns, l ≠ "--" ∧ ∃ w, c.parse (recordText l) = .ok w ∧ c.errorField w = none) :
    jsonPlusLoop c verbose (ns ++ rest) acc = jsonPlusLoop c verbose rest (acc ++ ns) := by
  induction ns generalizing acc with
  | nil => simp
  | cons l ls ih =>
    obtain ⟨hne, w, hw, he⟩ := h l (by simp)
    have hrec : ∀ l' ∈ ls, l' ≠ "--" ∧
        ∃ w, c.parse (recordText l') = .ok w ∧ c.errorField w = none := by
      intro l' hl'; exact h l' (by simp [hl'])
    simp only [List.cons_append, jsonPlusLoop, if_neg hne, hw, he]
    rw [List.append_eq, ih _ hrec]
    simp

/-- C1 (counterexample): on the body `"notice1\n--\n42"` — one notice line, the
separator, a payload line — `getResult` in JSON+ mode (verbose on) returns the
decoded payload with the notice accumulated, but emits no log output at all:
the one notice line is never logged, contradicting "logs exactly the N notice
lines". -/
theorem getResult_notice_not_logged :
    (getResult testCodec true "notice1\n--\n42" .jsonPlus).2 = []
    ∧ (getResult testCodec true "notice1\n--\n42" .jsonPlus).1
        = .payload (.num 42) ["notice1"] := by
  constructor <;> decide

/-- C1 (amended): for every JSON+ response body consisting of N notice lines
(each parsing as a structured record without an `error` field), then a
separator line `--`, then a payload line, `getResult` in 'JSON+' mode returns
exactly the decoded payload and accumulates exactly the N notice lines as its
diagnostic notices — without logging them (no log output is produced on this
path; notices are only logged, in verbose mode, when the separator is never
found) — for every N including N=0. -/
theorem getResult_payload_and_notices {α : Type} (c : Codec α) (verbose : Bool)
    (body payload : String) (ns : List String) (v : α)
    (hsplit : splitLines body = ns ++ ["--", payload])
    (hns : ∀ l ∈ ns, l ≠ "--" ∧ ∃ w, c.parse (recordText l) = .ok w ∧ c.errorField w = none)
    (hp : payload ≠ "")
    (hv : c.parse payload = .ok v) :
    getResult c verbose body .jsonPlus = (.payload v ns, []) := by
  have h := jsonPlusLoop_skip_notices c verbose ns ["--", payload] [] hns
  simp only [getResult, hsplit, h, List.nil_append]
  simp [jsonPlusLoop, payloadText, hp, hv]

/-- C1 (witness for the amended theorem): the body `"notice1\nnotice2\n--\n42"`
with N=2 notices yields the decoded payload `42`, the two accumulated notices,
and no log output. -/
theorem getResult_payload_and_notices_witness :
    getResult testCodec true "notice1\nnotice2\n--\n42" .jsonPlus
      = (.payload (.num 42) ["notice1", "notice2"], []) :=
  getResult_payload_and_notices testCodec true "notice1\nnotice2\n--\n42" "42"
    ["notice1", "notice2"] (.num 42) (by decide)
    (by intro l hl
        fin_cases hl
        · exact ⟨by decide, .note "notice1", by decide, by decide⟩
        · exact ⟨by decide, .note "notice2", by decide, by decide⟩)
    (by decide) (by decide)

/-- C2: for every JSON+ response body whose first record parses to an object
carrying an `error` field with message and code, `getResult` in 'JSON+' mode
fails with a backend error whose code equals that record's `code`, whatever
follows in the body (in particular even if a valid separator line and payload
line follow later). -/
theorem getResult_error_first_record {α : Type} (c : Codec α) (verbose : Bool)
    (body l0 : String) (rest : List String) (w : α) (info : ErrorInfo)
    (hsplit : splitLines body = l0 :: rest)
    (hne : l0 ≠ "--")
    (hw : c.parse (recordText l0) = .ok w)
    (he : c.errorField w = some info) :
    getResult c verbose body .jsonPlus
      = (.backendError info.code ("Backend error: " ++ info.message), []) := by
  simp [getResult, hsplit, jsonPlusLoop, hne, hw, he]

/-- C2 (witness): body `"ERR\n--\n42"`, whose first record decodes with error
field `{message: boom, code: E42}`, fails with code `E42` even though a valid
separator and payload line follow. -/
theorem getResult_error_first_record_witness :
    getResult testCodec false "ERR\n--\n42" .jsonPlus
      = (.backendError "E42" ("Backend error: " ++ "boom"), []) :=
  getResult_error_first_record testCodec false "ERR\n--\n42" "ERR" ["--", "42"]
    (.obj (some ⟨"boom", "E42"⟩)) ⟨"boom", "E42"⟩ (by decide) (by decide)
    (by decide) (by decide)

/-- C8: for every JSON+ response body whose lines are exhausted without any
line equal to the separator `--` — regardless of how many well-formed notice
records the body contains — `getResult` in 'JSON+' mode fails with the
`result not received` error, never returning a value. -/
theorem getResult_no_separator {α : Type} (c : Codec α) (verbose : Bool) (body : String)
    (hns : ∀ l ∈ splitLines body,
      l ≠ "--" ∧ ∃ w, c.parse (recordText l) = .ok w ∧ c.errorField w = none) :
    (getResult c verbose body .jsonPlus).1 = .resultNotReceived (splitLines body) := by
  have h := jsonPlusLoop_skip_notices c verbose (splitLines body) [] [] hns
  simp only [List.append_nil, List.nil_append] at h
  simp [getResult, h, jsonPlusLoop]

/-- C8 (witness): the two-line body `"notice1\nnotice2"`, both lines
well-formed records, fails with `result not received`. -/
theorem getResult_no_separator_witness :
    (getResult testCodec true "notice1\nnotice2" .jsonPlus).1
      = .resultNotReceived ["notice1", "notice2"] := by
  have h := getResult_no_separator testCodec true "notice1\nnotice2"
    (by intro l hl
        have hl' : l = "notice1" ∨ l = "notice2" := by
          have : splitLines "notice1\nnotice2" = ["notice1", "notice2"] := by decide
          rw [this] at hl; simpa using hl
        rcases hl' with h1 | h2
        · exact ⟨by simp [h1], .note "notice1", by simp [h1]; decide, by decide⟩
        · exact ⟨by simp [h2], .note "notice2", by simp [h2]; decide, by decide⟩)
  rw [h]
  decide

/-- C10: if the separator line `--` is the final line of a JSON+ response body
(no payload line follows), `getResult` in 'JSON+' mode does not fail: the
missing payload line is defaulted to the literal text `null`, so the call
returns the decoding of `null`. -/
theorem getResult_separator_last {α : Type} (c : Codec α) (verbose : Bool)
    (body : String) (ns : List String) (vnull : α)
    (hsplit : splitLines body = ns ++ ["--"])
    (hns : ∀ l ∈ ns, l ≠ "--" ∧ ∃ w, c.parse (recordText l) = .ok w ∧ c.errorField w = none)
    (hnull : c.parse "null" = .ok vnull) :
    getResult c verbose body .jsonPlus = (.payload vnull ns, []) := by
  have h := jsonPlusLoop_skip_notices c verbose ns ["--"] [] hns
  simp only [getResult, hsplit, h, List.nil_append]
  simp [jsonPlusLoop, payloadText, hnull]

/-- C10 (witness): the body `"--"` (the separator is the only and final line)
returns the decoded `null` with no notices and no failure. -/
theorem getResult_separator_last_witness :
    getResult testCodec false "--" .jsonPlus = (.payload .jnull [], []) :=
  getResult_separator_last testCodec false "--" [] .jnull (by decide)
    (by intro l hl; exact absurd hl (List.not_mem_nil l)) (by decide)

/-! ## Rows

A `Row` is a JS object mapping column names to primitive values; the model is
an association list in property order (JS objects have an iteration order, and
`for...in` / `Object.keys` follow it), with lookup by key. -/

/-- Primitive values (`AnyValue` without `Date`: string, number, boolean,
null). -/
inductive JVal where
  | vnull
  | vbool (b : Bool)
  | vnum (n : Int)
  | vstr (s : String)
deriving DecidableEq

/-- `type Row = Record<string, any>`. -/
abbrev Row : Type := List (String × JVal)

/-- Property access `row[k]`: the value at key `k`, `undefined` when absent. -/
def rowLookup (r : Row) (k : String) : Option JVal :=
  (r.find? (fun kv => decide (kv.1 = k))).map (fun kv => kv.2)

/-- The keys of a row, in property order. -/
def rowKeys (r : Row) : List String := r.map (fun kv => kv.1)

/-- Deep structural equality of two JS objects, as the external `discrepances`
comparator implements it: same keys, equal values key by key. -/
def rowEqv (a b : Row) : Bool :=
  ((rowKeys a).all fun k => decide (rowLookup a k = rowLookup b k)) &&
  ((rowKeys b).all fun k => decide (rowLookup b k = rowLookup a k))

/-- Deep structural equality of two JS arrays of objects: same length, equal
element by element (positional). -/
def rowsEqv (xs ys : List Row) : Bool :=
  decide (xs.length = ys.length) && (xs.zip ys).all fun p => rowEqv p.1 p.2

/-- `LikeAr(row).filter((_,k) => !!existColumn[k]).plain()` where `existColumn`
has key set `cols`: keep exactly the entries whose key is in `cols`. -/
def projectRow (cols : List String) (r : Row) : Row :=
  r.filter (fun kv => cols.contains kv.1)

/-! ### compareRows (EmulatedSession, src/unnamed/part_001 lines 272-291) -/

/-- The two throw sites of `compareRows`: the comparator mismatch (carrying
both the — possibly projected — observed rows and the expected rows) and the
unrecognized comparison mode. -/
inductive CompareError where
  | discrepancy (obtained expected : List Row)
  | modeNotRecognized (mode : String)
deriving DecidableEq

/-- `compareRows(obtained, expected, compare)`: when `expected` is non-empty,
project every obtained row onto the key set of `expected[0]`; then `all` mode
asserts deep structural equality (throwing a discrepancy carrying both sides),
and any other mode throws `mode not recognized`. -/
def compareRows (obtained expected : List Row) (compare : String) :
    Except CompareError Unit :=
  let filteredReponseRows :=
    if expected.length > 0 then
      obtained.map (projectRow (rowKeys (expected.headD [])))
    else obtained
  if compare = "all" then
    if rowsEqv filteredReponseRows expected then Except.ok ()
    else Except.error (.discrepancy filteredReponseRows expected)
  else Except.error (.modeNotRecognized compare)

/-! ### Semantic characterization of the structural comparison -/

/-- Two rows agree as JS objects: every key reads the same value (or is absent
from both). -/
def RowAgrees (a b : Row) : Prop := ∀ k, rowLookup a k = rowLookup b k

/-- Positional agreement of two row lists: same length, rows agree pairwise. -/
def RowsMatch (xs ys : List Row) : Prop := List.Forall₂ RowAgrees xs ys

theorem rowLookup_eq_none {r : Row} {k : String} (h : k ∉ rowKeys r) :
    rowLookup r k = none := by
  rw [rowLookup, Option.map_eq_none', List.find?_eq_none]
  intro kv hkv hdec
  exact h (by
    rw [rowKeys, List.mem_map]
    exact ⟨kv, hkv, of_decide_eq_true hdec⟩)

theorem rowEqv_iff (a b : Row) : rowEqv a b = true ↔ RowAgrees a b := by
  rw [rowEqv, Bool.and_eq_true, List.all_eq_true, List.all_eq_true]
  constructor
  · intro h k
    by_cases ha : k ∈ rowKeys a
    · exact of_decide_eq_true (h.1 k ha)
    · by_cases hb : k ∈ rowKeys b
      · exact (of_decide_eq_true (h.2 k hb)).symm
      · rw [rowLookup_eq_none ha, rowLookup_eq_none hb]
  · intro h
    exact ⟨fun k _ => decide_eq_true (h k), fun k _ => decide_eq_true (h k).symm⟩

theorem rowsEqv_iff (xs ys : List Row) : rowsEqv xs ys = true ↔ RowsMatch xs ys := by
  rw [rowsEqv, Bool.and_eq_true, List.all_eq_true, decide_eq_true_iff,
    RowsMatch, List.forall₂_iff_zip]
  constructor
  · rintro ⟨hlen, hall⟩
    exact ⟨hlen, fun {a b} hab => (rowEqv_iff a b).mp (hall (a, b) hab)⟩
  · rintro ⟨hlen, hall⟩
    exact ⟨hlen, fun p hp => (rowEqv_iff p.1 p.2).mpr (hall hp)⟩

/-- C3: for every non-empty expected row list, `compareRows` projects every
observed row onto exactly the columns of the first expected row before the
positional deep equality check (so an extra observed column is ignored, and a
differing value in a shared column or a row-order difference raises a
discrepancy error carrying both sides); for an empty expected list the
observed rows are compared unprojected; any comparison mode other than `all`
raises a usage error. -/
theorem compareRows_claim (obtained expected : List Row) :
    (∀ mode, mode ≠ "all" →
        compareRows obtained expected mode = .error (.modeNotRecognized mode))
  ∧ (expected ≠ [] →
      (RowsMatch (obtained.map (projectRow (rowKeys (expected.headD [])))) expected →
          compareRows obtained expected "all" = .ok ())
      ∧ (¬ RowsMatch (obtained.map (projectRow (rowKeys (expected.headD [])))) expected →
          compareRows obtained expected "all"
            = .error (.discrepancy
                (obtained.map (projectRow (rowKeys (expected.headD [])))) expected)))
  ∧ (expected = [] →
      (RowsMatch obtained expected → compareRows obtained expected "all" = .ok ())
      ∧ (¬ RowsMatch obtained expected →
          compareRows obtained expected "all"
            = .error (.discrepancy obtained expected))) := by
  refine ⟨?_, ?_, ?_⟩
  · intro mode hmode
    simp [compareRows, hmode]
  · intro hne
    obtain ⟨e0, erest, rfl⟩ : ∃ e0 erest, expected = e0 :: erest := by
      cases expected with
      | nil => exact absurd rfl hne
      | cons a l => exact ⟨a, l, rfl⟩
    constructor
    · intro hmatch
      have hb := (rowsEqv_iff _ _).mpr hmatch
      simp only [List.headD_cons] at hb
      simp [compareRows, hb]
    · intro hmatch
      have hb : rowsEqv (obtained.map (projectRow (rowKeys ((e0 :: erest).headD []))))
          (e0 :: erest) = false := by
        rw [← Bool.not_eq_true, rowsEqv_iff]
        exact hmatch
      simp only [List.headD_cons] at hb
      simp [compareRows, hb]
  · intro hempty
    subst hempty
    constructor
    · intro hmatch
      simp [compareRows, (rowsEqv_iff _ _).mpr hmatch]
    · intro hmatch
      have hb : rowsEqv obtained [] = false := by
        rw [← Bool.not_eq_true, rowsEqv_iff]
        exact hmatch
      simp [compareRows, hb]

/-- C3 (witness): with expected `[{a:1,b:2}]`, observed `[{a:1,b:2,c:99}]`
passes (extra column `c` ignored), observed `[{a:1,b:3}]` fails with a
discrepancy carrying the projected observed rows and the expected rows, and a
mode other than `all` fails with the usage error. -/
theorem compareRows_claim_witness :
    compareRows [[("a", JVal.vnum 1), ("b", JVal.vnum 2), ("c", JVal.vnum 99)]]
        [[("a", JVal.vnum 1), ("b", JVal.vnum 2)]] "all" = .ok ()
  ∧ compareRows [[("a", JVal.vnum 1), ("b", JVal.vnum 3)]]
        [[("a", JVal.vnum 1), ("b", JVal.vnum 2)]] "all"
      = .error (.discrepancy [[("a", JVal.vnum 1), ("b", JVal.vnum 3)]]
          [[("a", JVal.vnum 1), ("b", JVal.vnum 2)]])
  ∧ compareRows [] [] "some" = .error (.modeNotRecognized "some") := by
  refine ⟨?_, ?_, ?_⟩
  · exact ((compareRows_claim
      [[("a", JVal.vnum 1), ("b", JVal.vnum 2), ("c", JVal.vnum 99)]]
      [[("a", JVal.vnum 1), ("b", JVal.vnum 2)]]).2.1 (by decide)).1
      (List.Forall₂.cons (fun k => rfl) List.Forall₂.nil)
  · exact ((compareRows_claim
      [[("a", JVal.vnum 1), ("b", JVal.vnum 3)]]
      [[("a", JVal.vnum 1), ("b", JVal.vnum 2)]]).2.1 (by decide)).2
      (fun h => by
        have h' : List.Forall₂ RowAgrees [[("a", JVal.vnum 1), ("b", JVal.vnum 3)]]
            [[("a", JVal.vnum 1), ("b", JVal.vnum 2)]] := h
        cases h' with
        | cons hf ht => exact absurd (hf "b") (by decide))
  · exact ((compareRows_claim [] []).1 "some" (by decide))

/-! ## saveRecord response handling (src/unnamed/part_001 lines 233-251)

After POSTing to `/table_record_save`, the method reads `result.command`, runs
the external `guarantee(description, result.row)` schema validation, then
`discrepances.showAndThrow(command, discrepances.test(x => x=='INSERT' ||
x=='UPDATE'))`, and finally returns the validated row.  `guarantee` is
modelled as a parameter returning `Except`. -/

/-- The two throw sites after the response is decoded: schema validation (the
external `guarantee`) and the command check; both are contract violations in
the error taxonomy. -/
inductive SaveRecordError (ε : Type) where
  | schemaValidation (e : ε)
  | commandMismatch (command : String)
deriving DecidableEq

/-- The tail of `saveRecord` on the decoded response `{command, row}`: validate
the row, then require `command` to be exactly `INSERT` or `UPDATE`, then
return the validated row.  (In the source the validation runs before the
command check, so a response failing both reports the validation error.) -/
def saveRecordResponseCheck {ρ σ ε : Type} (guaranteeRow : ρ → Except ε σ)
    (command : String) (responseRow : ρ) : Except (SaveRecordError ε) σ :=
  match guaranteeRow responseRow with
  | .error e => .error (.schemaValidation e)
  | .ok row =>
    if command = "INSERT" ∨ command = "UPDATE" then .ok row
    else .error (.commandMismatch command)

/-- C4: for every saveRecord call, if the decoded response's `command` field is
neither exactly `INSERT` nor exactly `UPDATE` the call fails (with a contract
violation: either the command mismatch, or — when the row also fails schema
validation, which runs first — the validation error, both in the
contract-violation taxonomy); when the command is one of those two values, the
response row validated against the declared schema is returned. -/
theorem saveRecord_command_claim {ρ σ ε : Type} (g : ρ → Except ε σ)
    (command : String) (r : ρ) :
    ((command ≠ "INSERT" ∧ command ≠ "UPDATE") →
        ∃ e, saveRecordResponseCheck g command r = .error e)
  ∧ (∀ row, g r = .ok row → (command = "INSERT" ∨ command = "UPDATE") →
        saveRecordResponseCheck g command r = .ok row) := by
  constructor
  · intro ⟨h1, h2⟩
    unfold saveRecordResponseCheck
    match hg : g r with
    | .error e => exact ⟨.schemaValidation e, rfl⟩
    | .ok row =>
      refine ⟨.commandMismatch command, ?_⟩
      simp [h1, h2]
  · intro row hrow hcmd
    unfold saveRecordResponseCheck
    rw [hrow]
    simp [hcmd]

/-- C4 (witness): command `DELETE` fails, command `INSERT` returns the
validated row. -/
theorem saveRecord_command_claim_witness :
    (∃ e, saveRecordResponseCheck (fun _ : Unit => (Except.ok 7 : Except String Nat))
        "DELETE" () = .error e)
  ∧ saveRecordResponseCheck (fun _ : Unit => (Except.ok 7 : Except String Nat))
        "INSERT" () = .ok 7 :=
  ⟨(saveRecord_command_claim (fun _ : Unit => (Except.ok 7 : Except String Nat))
      "DELETE" ()).1 (by decide),
   (saveRecord_command_claim (fun _ : Unit => (Except.ok 7 : Except String Nat))
      "INSERT" ()).2 7 rfl (Or.inl rfl)⟩

/-! ## getJsonPkValues (src/unnamed/part_001 lines 225-232)

`this.server.tableStructures[table]` yields (through the dump context) a
`TableDefinition`, of which only `primaryKey` — the declared primary-key
column list — is used here; the lookup is modelled as a partial map from table
name to that list.  `JSON4all.stringify` is the external encoder; it receives
the array `tableDef.primaryKey.map(f => rowToSave[f])`, whose entries may be
`undefined` for absent keys, hence `List (Option JVal)`. -/

/-- `getJsonPkValues(table, rowToSave, primaryKeyValues)`: throws when the
table is unknown; otherwise stringifies `primaryKeyValues` when given, else
the row's values at the declared primary-key columns in declared order. -/
def getJsonPkValues (tableStructures : String → Option (List String))
    (stringify : List (Option JVal) → String)
    (table : String) (rowToSave : Row)
    (primaryKeyValues : Option (List (Option JVal))) : Except String String :=
  match tableStructures table with
  | none => .error ("table \"" ++ table ++ "\" not found in server.tableStructures")
  | some primaryKey =>
    .ok (stringify
      (primaryKeyValues.getD (primaryKey.map (fun f => rowLookup rowToSave f))))

/-- C6: for every table and every two rowToSave objects containing the same
values at the table's declared primary-key columns — whatever their property
iteration order and whatever extra non-key fields they carry —
`getJsonPkValues` produces the identical signature string, because key order
is taken from the declared primary-key column order. -/
theorem getJsonPkValues_order_stable (tableStructures : String → Option (List String))
    (stringify : List (Option JVal) → String) (table : String)
    (r1 r2 : Row) (pk : List String)
    (hts : tableStructures table = some pk)
    (hagree : ∀ f ∈ pk, rowLookup r1 f = rowLookup r2 f) :
    getJsonPkValues tableStructures stringify table r1 none
      = getJsonPkValues tableStructures stringify table r2 none := by
  simp only [getJsonPkValues, hts, Option.getD_none]
  exact congrArg (fun l => Except.ok (stringify l)) (List.map_congr_left hagree)

/-- A concrete stand-in for json4all's stringification of an array of
primitive values, used to evaluate the model on closed inputs. -/
def jvalToText : Option JVal → String
  | none => "null"
  | some JVal.vnull => "null"
  | some (JVal.vbool b) => cond b "true" "false"
  | some (JVal.vnum n) => toString n
  | some (JVal.vstr s) => "\"" ++ s ++ "\""

/-- Concrete array stringification for witnesses. -/
def pkStringify (vs : List (Option JVal)) : String :=
  "[" ++ String.intercalate "," (vs.map jvalToText) ++ "]"

/-- C6 (witness): for a table with declared key columns `[id]`, saving
`{id:5, name:x}` and saving `{name:x, id:5}` produce the identical signature
string. -/
theorem getJsonPkValues_order_stable_witness :
    getJsonPkValues (fun t => if t = "person" then some ["id"] else none) pkStringify
        "person" [("id", JVal.vnum 5), ("name", JVal.vstr "x")] none
      = getJsonPkValues (fun t => if t = "person" then some ["id"] else none) pkStringify
        "person" [("name", JVal.vstr "x"), ("id", JVal.vnum 5)] none :=
  getJsonPkValues_order_stable (fun t => if t = "person" then some ["id"] else none)
    pkStringify "person" [("id", JVal.vnum 5), ("name", JVal.vstr "x")]
    [("name", JVal.vstr "x"), ("id", JVal.vnum 5)] ["id"] (by decide) (by decide)

/-! ## login (EmulatedSession, src/unnamed/part_001 lines 204-221)

The network round-trips of `login` are modelled as an environment: the
head-only response of `POST /login`, the body text of a `GET` to an arbitrary
path (used for the redirect target in the error-message branch), and the
decoded JSON of `GET /client-setup`. -/

/-- `{status, location}` as returned by `request(..., onlyHeaders: true)`. -/
structure ResponseHeaders where
  status : Nat
  location : Option String
deriving DecidableEq

/-- `location?.replace(/^\./, '')`: remove one leading `.` when present. -/
def stripLeadingDot (s : String) : String :=
  match s.toList with
  | '.' :: rest => String.mk rest
  | _ => s

/-- The responses the backend gives to the requests `login` can make. -/
structure LoginEnv (κ : Type) where
  /-- head-only response of `POST /login` with the credentials. -/
  loginResponse : ResponseHeaders
  /-- body text of `GET path` (used on the redirect target). -/
  getPage : String → String
  /-- decoded body of `GET /client-setup` (parseResult JSON). -/
  clientSetup : κ

/-- Everything `login` can do. -/
inductive LoginOutcome (κ : Type) where
  /-- `throw new Error("se esperaba una redirección")` on a non-302 status. -/
  | redirectionExpected (status : Nat)
  /-- location mismatch with `opts.returnErrorMessage`: the message extracted
  from the redirect target with the bp-login-error regex is returned. -/
  | returnedErrorMessage (m : Option String)
  /-- location mismatch without `returnErrorMessage`:
  `discrepances.showAndThrow` throws, carrying both sides. -/
  | discrepancyThrown (got : Option String) (expected : String)
  /-- location mismatch with `returnErrorMessage` but a missing Location
  header: the non-null assertion `location!` is wrong at runtime and the path
  join throws. -/
  | pathJoinThrown
  /-- success: `this.config` is set to the decoded `/client-setup` body and
  `null` is returned. -/
  | loggedIn (config : κ)
deriving DecidableEq

/-- `login(credentials, opts)` (src/unnamed/part_001 lines 204-221), given the
configured `this.server.config.login.plus.successRedirect`. -/
def login {κ : Type} (env : LoginEnv κ) (successRedirect : String)
    (returnErrorMessage : Bool) : LoginOutcome κ :=
  if env.loginResponse.status ≠ 302 then
    .redirectionExpected env.loginResponse.status
  else if env.loginResponse.location.map stripLeadingDot ≠ some successRedirect then
    if returnErrorMessage then
      match env.loginResponse.location with
      | some loc => .returnedErrorMessage (bpLoginErrorMatch (env.getPage loc))
      | none => .pathJoinThrown
    else
      .discrepancyThrown (env.loginResponse.location.map stripLeadingDot) successRedirect
  else
    .loggedIn env.clientSetup

/-- C5: in HTTP mode, a `POST /login` status other than 302 makes `login`
throw; a 302 whose redirect location (leading `.` of `./` stripped) equals the
configured success path makes `login` fetch `/client-setup`, store the decoded
client configuration, and return null — modelled by the `loggedIn` outcome
carrying the decoded configuration; on a location mismatch with
`opts.returnErrorMessage` set, `login` GETs the redirect target and returns
the login-error message extracted by the bp-login-error regex instead of
throwing. -/
theorem login_claim {κ : Type} (env : LoginEnv κ) (successRedirect : String) :
    (env.loginResponse.status ≠ 302 →
        ∀ rem, login env successRedirect rem
          = .redirectionExpected env.loginResponse.status)
  ∧ (env.loginResponse.status = 302 →
      (∀ loc, env.loginResponse.location = some loc →
          stripLeadingDot loc = successRedirect →
          ∀ rem, login env successRedirect rem = .loggedIn env.clientSetup)
      ∧ (∀ loc, env.loginResponse.location = some loc →
          stripLeadingDot loc ≠ successRedirect →
          login env successRedirect true
            = .returnedErrorMessage (bpLoginErrorMatch (env.getPage loc)))) := by
  constructor
  · intro hst rem
    simp [login, hst]
  · intro hst
    constructor
    · intro loc hloc heq rem
      simp [login, hst, hloc, heq]
    · intro loc hloc hne
      simp [login, hst, hloc, hne]

/-- C5 (witness): with a 302 redirect to `./calendario` against configured
success path `/calendario`, login succeeds storing the client configuration;
with a redirect to `./login?err` and `returnErrorMessage`, login returns the
text captured by the error-message regex from the fetched page; with a 500
status it throws. -/
theorem login_claim_witness :
    login (LoginEnv.mk (ResponseHeaders.mk 302 (some "./calendario"))
        (fun _ => "") (42 : Nat)) "/calendario" false = .loggedIn 42
  ∧ login (LoginEnv.mk (ResponseHeaders.mk 302 (some "./login?err"))
        (fun _ => "<p class=error-message x=1>Clave incorrecta</p>") (42 : Nat))
        "/calendario" true = .returnedErrorMessage (some "Clave incorrecta")
  ∧ login (LoginEnv.mk (ResponseHeaders.mk 500 none)
        (fun _ => "") (42 : Nat)) "/calendario" false = .redirectionExpected 500 := by
  refine ⟨?_, ?_, ?_⟩
  · exact (login_claim (LoginEnv.mk (ResponseHeaders.mk 302 (some "./calendario"))
      (fun _ => "") (42 : Nat)) "/calendario").2 (by decide)
      |>.1 "./calendario" rfl (by decide) false
  · have h := (login_claim (LoginEnv.mk (ResponseHeaders.mk 302 (some "./login?err"))
      (fun _ => "<p class=error-message x=1>Clave incorrecta</p>") (42 : Nat))
      "/calendario").2 (by decide) |>.2 "./login?err" rfl (by decide)
    rw [h]
    decide
  · exact (login_claim (LoginEnv.mk (ResponseHeaders.mk 500 none)
      (fun _ => "") (42 : Nat)) "/calendario").1 (by decide) false

/-! ## valueFromVisualRepresentation (src/src/serial-skipper.ts lines 201-211)

The `type` argument is a guarantee-type `Description`; the method only ever
tests `'nullable' in type`, `'optional' in type`, `'string' in type` and
`'boolean' in type`, so the schema is modelled by those four key-presence
flags. -/

/-- The key-presence flags of the declared field schema that the decoder
inspects. -/
structure Desc where
  nullableKey : Bool
  optionalKey : Bool
  stringKey : Bool
  booleanKey : Bool
deriving DecidableEq

/-- What the decoder can produce: null, the text, a boolean — or JS
`undefined`, which is what `this.booleanRepresentation[representation]`
evaluates to on a token outside the vocabulary and which the method returns
as-is. -/
inductive VisualValue where
  | vnull
  | vstr (s : String)
  | vbool (b : Bool)
  | undefinedValue
deriving DecidableEq

/-- The two throw sites, each naming the schema (and the offending text in the
second). -/
inductive DecodeError where
  | nullNotAllowed (type_ : Desc)
  | notDecodable (representation : String) (type_ : Desc)
deriving DecidableEq

/-- `booleanRepresentation = {no: false, yes: true, si: true, sí: true,
Sí: true, Si: true}` as a lookup. -/
def booleanRepresentation (s : String) : Option Bool :=
  if s = "no" then some false
  else if s = "yes" ∨ s = "si" ∨ s = "sí" ∨ s = "Sí" ∨ s = "Si" then some true
  else none

/-- `valueFromVisualRepresentation(representation, type)`: null text is legal
only for nullable/optional schemas; a string-kind schema returns the text; a
boolean-kind schema returns the vocabulary lookup (JS `undefined` when the
token is unknown); any other schema kind throws naming text and schema. -/
def valueFromVisualRepresentation (representation : Option String) (type_ : Desc) :
    Except DecodeError VisualValue :=
  match representation with
  | none =>
    if type_.nullableKey || type_.optionalKey then .ok .vnull
    else .error (.nullNotAllowed type_)
  | some r =>
    if type_.stringKey then .ok (.vstr r)
    else if type_.booleanKey then
      .ok (match booleanRepresentation r with
           | some b => .vbool b
           | none => .undefinedValue)
    else .error (.notDecodable r type_)

/-- C7 (counterexample): with a boolean-kind schema, the token `"tal vez"` —
outside the fixed yes/no vocabulary — does NOT fail with a decoding error: the
method returns the undefined lookup result as a value (`return
this.booleanRepresentation[representation]` runs before the final throw, so
the throw naming the offending text is unreachable for boolean schemas). -/
theorem valueFromVisualRepresentation_unknown_token_no_error :
    valueFromVisualRepresentation (some "tal vez") (Desc.mk false false false true)
      = .ok .undefinedValue := by
  decide

/-- C7 (amended): `valueFromVisualRepresentation` with a boolean-kind schema
maps `Sí` to true and `no` to false, but a token outside the fixed localized
yes/no vocabulary yields the undefined lookup result as a (defined-as-nothing)
value rather than a decoding error; null/absent text yields null exactly when
the schema is marked nullable or optional and is a decoding failure naming the
schema otherwise; a string-kind schema returns the text unchanged; only a
schema that is neither string- nor boolean-kind fails on present text with the
decoding error naming the offending text and the schema. -/
theorem valueFromVisualRepresentation_claim (type_ : Desc) (r : String) :
    (valueFromVisualRepresentation (some "Sí") (Desc.mk false false false true)
        = .ok (.vbool true))
  ∧ (valueFromVisualRepresentation (some "no") (Desc.mk false false false true)
        = .ok (.vbool false))
  ∧ (type_.stringKey = false → type_.booleanKey = true → booleanRepresentation r = none →
        valueFromVisualRepresentation (some r) type_ = .ok .undefinedValue)
  ∧ (valueFromVisualRepresentation none type_
        = if type_.nullableKey || type_.optionalKey then .ok .vnull
          else .error (.nullNotAllowed type_))
  ∧ (type_.stringKey = true →
        valueFromVisualRepresentation (some r) type_ = .ok (.vstr r))
  ∧ (type_.stringKey = false → type_.booleanKey = false →
        valueFromVisualRepresentation (some r) type_
          = .error (.notDecodable r type_)) := by
  refine ⟨by decide, by decide, ?_, rfl, ?_, ?_⟩
  · intro hs hb hrep
    simp [valueFromVisualRepresentation, hs, hb, hrep]
  · intro hs
    simp [valueFromVisualRepresentation, hs]
  · intro hs hb
    simp [valueFromVisualRepresentation, hs, hb]

/-- C7 (witness for the amended theorem): the concrete vocabulary facts, the
undefined result on `"quizás"`, null handling on a nullable boolean schema and
failure on a non-nullable one, text pass-through on a string schema, and the
named decoding error on a schema with neither kind. -/
theorem valueFromVisualRepresentation_claim_witness :
    valueFromVisualRepresentation (some "Sí") (Desc.mk false false false true)
        = .ok (.vbool true)
  ∧ valueFromVisualRepresentation (some "no") (Desc.mk false false false true)
        = .ok (.vbool false)
  ∧ valueFromVisualRepresentation (some "quizás") (Desc.mk false false false true)
        = .ok .undefinedValue
  ∧ valueFromVisualRepresentation none (Desc.mk true false false true) = .ok .vnull
  ∧ valueFromVisualRepresentation none (Desc.mk false false false true)
        = .error (.nullNotAllowed (Desc.mk false false false true))
  ∧ valueFromVisualRepresentation (some "hola") (Desc.mk false false true false)
        = .ok (.vstr "hola")
  ∧ valueFromVisualRepresentation (some "3") (Desc.mk false false false false)
        = .error (.notDecodable "3" (Desc.mk false false false false)) := by
  have h := valueFromVisualRepresentation_claim (Desc.mk false false false true) "quizás"
  have h2 := valueFromVisualRepresentation_claim (Desc.mk true false false true) "quizás"
  have h3 := valueFromVisualRepresentation_claim (Desc.mk false false true false) "hola"
  have h4 := valueFromVisualRepresentation_claim (Desc.mk false false false false) "3"
  refine ⟨h.1, h.2.1, h.2.2.1 rfl rfl (by decide), ?_, ?_, h3.2.2.2.2.1 rfl,
    h4.2.2.2.2.2 rfl rfl⟩
  · rw [h2.2.2.2.1]
    decide
  · rw [h.2.2.2.1]
    decide

/-! ## closeSession

HTTP mode (src/unnamed/part_001 lines 222-224): `this.config = null!` and
nothing else — in particular the private `cookies` array is left as is.
Browser mode (src/src/serial-skipper.ts lines 156-166): `if (this.page)` where
`page` is the throwing getter of lines 122-125 (`if (this._page == null) throw
new Error("openGrid with no open page")`), so the very first page access
throws when `_page` is null; when a page exists the getter returns it (an
object, hence truthy), the page is closed and `_page` nulled, then the
`context` field (a plain field, no getter) is closed and nulled when non-null,
then the base method runs. -/

/-- The session fields touched by teardown in HTTP mode: the captured cookies
and the client-config snapshot. -/
structure HttpSessionState (κ : Type) where
  cookies : List String
  config : Option κ
deriving DecidableEq

/-- `EmulatedSession.closeSession`: `this.config = null!;`. -/
def EmulatedSession.closeSession {κ : Type} (s : HttpSessionState κ) :
    HttpSessionState κ :=
  HttpSessionState.mk s.cookies none

/-- Browser-mode session state: the base state plus the page and context
handles (identified by numbers; `null` is `none`). -/
structure BrowserSessionState (κ : Type) where
  base : HttpSessionState κ
  page : Option Nat
  context : Option Nat
deriving DecidableEq

/-- The external close calls the browser-mode teardown makes. -/
inductive CloseAction where
  | closePage (id : Nat)
  | closeContext (id : Nat)
deriving DecidableEq

/-- `BrowserEmulatedSession.closeSession`: `if (this.page)` goes through the
`page` getter, which throws `openGrid with no open page` when `_page` is null;
otherwise the page is closed and `_page` nulled, then the `context` field is
closed and nulled when non-null, then `await super.closeSession()`.  Returns
the new state and the issued close calls in order, or the getter's error. -/
def BrowserEmulatedSession.closeSession {κ : Type} (s : BrowserSessionState κ) :
    Except String (BrowserSessionState κ × List CloseAction) :=
  match s.page with
  | none => .error "openGrid with no open page"
  | some p =>
    let afterPage := BrowserSessionState.mk s.base none s.context
    let ctxPair :=
      match afterPage.context with
      | some c => (BrowserSessionState.mk afterPage.base afterPage.page none,
          [CloseAction.closeContext c])
      | none => (afterPage, [])
    .ok (BrowserSessionState.mk (EmulatedSession.closeSession ctxPair.1.base)
          ctxPair.1.page ctxPair.1.context,
        CloseAction.closePage p :: ctxPair.2)

/-- C9 (counterexample): in HTTP mode `closeSession` does NOT clear the cookie
set (only `config` is nulled); and in browser mode `closeSession` does NOT
tolerate an absent page and a second call does NOT succeed: a first call on a
session with an open page and context succeeds (closing both and nulling
`config`), but calling `closeSession` again on the resulting state — whose
`_page` is null — throws `openGrid with no open page` through the page
getter. -/
theorem closeSession_counterexample :
    (EmulatedSession.closeSession (HttpSessionState.mk ["connect.sid=abc"] (some 1))).cookies
      = ["connect.sid=abc"]
  ∧ BrowserEmulatedSession.closeSession
      (BrowserSessionState.mk (HttpSessionState.mk [] (some 1)) (some 2) (some 3))
      = .ok (BrowserSessionState.mk (HttpSessionState.mk [] none) none none,
          [CloseAction.closePage 2, CloseAction.closeContext 3])
  ∧ BrowserEmulatedSession.closeSession
      (BrowserSessionState.mk (HttpSessionState.mk [] (none : Option Nat)) none none)
      = .error "openGrid with no open page" := by
  refine ⟨by decide, by decide, by decide⟩

/-- C9 (amended): in HTTP mode `closeSession` nulls only the `config` snapshot
(the captured cookie set is retained) and is idempotent: a second call
succeeds and leaves the state unchanged.  In browser mode `closeSession` goes
through the throwing `page` getter: when the page is absent it throws
`openGrid with no open page` (closing nothing), so it neither tolerates an
absent page nor survives a second call — after a successful close, which
closes the page, then the context when present, and nulls `config` while
keeping the cookies, the page is null and any further call throws. -/
theorem closeSession_claim {κ : Type} (h : HttpSessionState κ)
    (s : BrowserSessionState κ) :
    (EmulatedSession.closeSession h = HttpSessionState.mk h.cookies none)
  ∧ (EmulatedSession.closeSession (EmulatedSession.closeSession h)
        = EmulatedSession.closeSession h)
  ∧ (s.page = none →
        BrowserEmulatedSession.closeSession s = .error "openGrid with no open page")
  ∧ (∀ p, s.page = some p →
        BrowserEmulatedSession.closeSession s
          = .ok (BrowserSessionState.mk (HttpSessionState.mk s.base.cookies none) none none,
              CloseAction.closePage p ::
                (match s.context with
                 | some c => [CloseAction.closeContext c]
                 | none => [])))
  ∧ (∀ p, s.page = some p → ∀ s' acts,
        BrowserEmulatedSession.closeSession s = .ok (s', acts) →
        BrowserEmulatedSession.closeSession s' = .error "openGrid with no open page") := by
  refine ⟨rfl, rfl, ?_, ?_, ?_⟩
  · intro hp
    simp [BrowserEmulatedSession.closeSession, hp]
  · intro p hp
    cases hc : s.context <;>
      simp [BrowserEmulatedSession.closeSession, EmulatedSession.closeSession, hp, hc]
  · intro p hp s' acts hok
    cases hc : s.context <;>
      simp [BrowserEmulatedSession.closeSession, EmulatedSession.closeSession, hp, hc]
        at hok <;>
      simp [BrowserEmulatedSession.closeSession, ← hok.1]

/-- C9 (witness for the amended theorem): concrete runs of the amended
behavior — HTTP close keeps the cookie and nulls the config; a browser close
with page 7 and context 8 closes both in order and nulls the config keeping
the cookie; a browser close with no page throws even though a context is still
open. -/
theorem closeSession_claim_witness :
    EmulatedSession.closeSession (HttpSessionState.mk ["c=1"] (some 5))
      = HttpSessionState.mk ["c=1"] none
  ∧ BrowserEmulatedSession.closeSession
      (BrowserSessionState.mk (HttpSessionState.mk ["c=1"] (some 5)) (some 7) (some 8))
      = .ok (BrowserSessionState.mk (HttpSessionState.mk ["c=1"] none) none none,
          [CloseAction.closePage 7, CloseAction.closeContext 8])
  ∧ BrowserEmulatedSession.closeSession
      (BrowserSessionState.mk (HttpSessionState.mk [] (none : Option Nat)) none (some 8))
      = .error "openGrid with no open page" := by
  have h1 := closeSession_claim (HttpSessionState.mk ["c=1"] (some 5))
    (BrowserSessionState.mk (HttpSessionState.mk ["c=1"] (some 5)) (some 7) (some 8))
  have h2 := closeSession_claim (HttpSessionState.mk [] (none : Option Nat))
    (BrowserSessionState.mk (HttpSessionState.mk [] (none : Option Nat)) none (some 8))
  exact ⟨h1.1, h1.2.2.2.1 7 rfl, h2.2.2.1 rfl⟩

end SerialTester
